import Mathlib

/-!
# TripleCross: command-and-control constants and the user-space XDP filter loader

A shallow embedding of

* `src/common/c&c.h`: the protocol literals and the trigger configuration;
* `src/user/xdp_filter.c`: `sig_handler`, `handle_rb_event` and `main`.

C strings are lists of bytes (`List Nat`) where they are matched against packet
payloads, and `String`s where they are written to standard output.  C `int`s are
`Int`s; the one place where 32-bit overflow can matter (`-err` in `main`) wraps
explicitly.  Everything the loader obtains from libc, libbpf or the kernel is an
explicit input of the model.
-/

namespace TripleCross

/-! ## `src/common/c&c.h` -/

/-- The literal `"CC_SYN"`. -/
def CC_PROT_SYN : String := "CC_SYN"

/-- The literal `"CC_ACK"`. -/
def CC_PROT_ACK : String := "CC_ACK"

/-- The literal `"CC_MSG#"`. -/
def CC_PROT_MSG : String := "CC_MSG#"

/-- The literal `"CC_FIN"`. -/
def CC_PROT_FIN_PART : String := "CC_FIN"

/-- Adjacent string literals `CC_PROT_MSG CC_PROT_FIN_PART`: the C compiler concatenates them. -/
def CC_PROT_FIN : String := CC_PROT_MSG ++ CC_PROT_FIN_PART

/-- The constant `0x10`. -/
def CC_TRIGGER_SYN_PACKET_PAYLOAD_SIZE : Nat := 0x10

/-- The byte string `"\x56\xA4"` (without the terminating NUL). -/
def CC_TRIGGER_SYN_PACKET_KEY_1 : List Nat := [0x56, 0xA4]

/-- The byte string `"\x78\x13"` (without the terminating NUL). -/
def CC_TRIGGER_SYN_PACKET_KEY_2 : List Nat := [0x78, 0x13]

/-- The byte string `"\x1F\x29"` (without the terminating NUL). -/
def CC_TRIGGER_SYN_PACKET_KEY_3 : List Nat := [0x1F, 0x29]

/-- The constant `0x02`. -/
def CC_TRIGGER_SYN_PACKET_SECTION_LEN : Nat := 0x02

/-- The bytes of an ASCII literal, as they travel in a packet payload. -/
def bytes (s : String) : List Nat := s.toList.map Char.toNat

/-! ### Token recognition -/

/-- The four protocol tokens. -/
inductive Token where
  | SYN
  | ACK
  | MSG
  | FIN
  deriving DecidableEq, Repr

/-- Modelled from the spec: token recognition is prefix-based (section 4.2); the recogniser's code
is not among the sources, so this is the generic first-match scan: the literals of `table` are
tested against the start of the payload in the order they are listed and the first one that is a
prefix decides. -/
def first_match : List (Token × List Nat) → List Nat → Option Token
  | [], _ => none
  | (t, lit) :: rest, payload =>
    if lit.isPrefixOf payload then some t else first_match rest payload

/-- A first-match table that tests MSG before FIN. -/
def msg_before_fin : List (Token × List Nat) :=
  [(Token.SYN, bytes CC_PROT_SYN), (Token.ACK, bytes CC_PROT_ACK),
   (Token.MSG, bytes CC_PROT_MSG), (Token.FIN, bytes CC_PROT_FIN)]

/-- A first-match table that tests FIN before MSG. -/
def fin_before_msg : List (Token × List Nat) :=
  [(Token.SYN, bytes CC_PROT_SYN), (Token.ACK, bytes CC_PROT_ACK),
   (Token.FIN, bytes CC_PROT_FIN), (Token.MSG, bytes CC_PROT_MSG)]

/-- ASCII lower-casing of one byte: `A`..`Z` go to `a`..`z`, every other byte stays. -/
def lower_byte (b : Nat) : Nat := if 65 ≤ b ∧ b ≤ 90 then b + 32 else b

/-- The payload `p` differs from the literal `lit` only in letter case: it is not `lit`, and
lower-casing both gives the same bytes. -/
def differs_only_in_case (p lit : List Nat) : Prop :=
  p ≠ lit ∧ p.map lower_byte = lit.map lower_byte

instance (p lit : List Nat) : Decidable (differs_only_in_case p lit) := by
  unfold differs_only_in_case
  infer_instance

/-! ### Trigger matcher -/

/-- Modelled from the spec: flow identity (section 3), the tuple of source address, source port,
destination address, destination port and transport protocol. -/
structure FlowIdentity where
  saddr : Nat
  sport : Nat
  daddr : Nat
  dport : Nat
  proto : Nat
  deriving DecidableEq, Repr

/-- Modelled from the spec: what the matcher needs of a packet (section 6): the SYN and ACK bits,
the payload bytes and the flow identity. -/
structure Packet where
  syn : Bool
  ack : Bool
  payload : List Nat
  flow : FlowIdentity
  deriving DecidableEq, Repr

/-- Modelled from the spec: a key table entry (section 3): offset within the trigger window,
expected byte sequence, length. -/
structure KeyTableEntry where
  offset : Nat
  expected : List Nat
  length : Nat
  deriving DecidableEq, Repr

/-- Modelled from the spec: the offsets are configuration that the constants of `c&c.h` do not
fix (section 9): where the trigger window starts in the payload, and where each key sits inside
the window. -/
structure TriggerOffsets where
  window : Nat
  key_1 : Nat
  key_2 : Nat
  key_3 : Nat
  deriving DecidableEq, Repr

/-- Modelled from the spec: the key table (section 2), three entries of
`CC_TRIGGER_SYN_PACKET_SECTION_LEN` bytes holding the keys of `c&c.h` at the configured
offsets. -/
def key_table (o : TriggerOffsets) : List KeyTableEntry :=
  [⟨o.key_1, CC_TRIGGER_SYN_PACKET_KEY_1, CC_TRIGGER_SYN_PACKET_SECTION_LEN⟩,
   ⟨o.key_2, CC_TRIGGER_SYN_PACKET_KEY_2, CC_TRIGGER_SYN_PACKET_SECTION_LEN⟩,
   ⟨o.key_3, CC_TRIGGER_SYN_PACKET_KEY_3, CC_TRIGGER_SYN_PACKET_SECTION_LEN⟩]

/-- Modelled from the spec: the trigger window (section 4.1), the
`CC_TRIGGER_SYN_PACKET_PAYLOAD_SIZE` bytes of the payload from the configured offset on. -/
def trigger_window (o : TriggerOffsets) (payload : List Nat) : List Nat :=
  (payload.drop o.window).take CC_TRIGGER_SYN_PACKET_PAYLOAD_SIZE

/-- The slice of `len` bytes of the window at offset `off`. -/
def window_slice (w : List Nat) (off len : Nat) : List Nat := (w.drop off).take len

/-- Modelled from the spec: one key comparison (section 4.1), exact equality of the slice at the
entry's offset with the entry's expected bytes. -/
def entry_matches (w : List Nat) (k : KeyTableEntry) : Bool :=
  decide (window_slice w k.offset k.length = k.expected)

/-- Modelled from the spec: the verdict of the matcher (section 4.1). -/
inductive MatchResult where
  | NoTrigger
  | Triggered (flow : FlowIdentity)
  deriving DecidableEq, Repr

/-- Modelled from the spec: `evaluate(packet)` of section 4.1 (the matcher runs in the packet
hook, whose code is not among the sources): only a SYN without ACK whose payload has at least
`CC_TRIGGER_SYN_PACKET_PAYLOAD_SIZE` bytes is examined, and all the key table entries must match
the trigger window. -/
def evaluate (o : TriggerOffsets) (pkt : Packet) : MatchResult :=
  if pkt.syn && !pkt.ack && decide (CC_TRIGGER_SYN_PACKET_PAYLOAD_SIZE ≤ pkt.payload.length)
      && (key_table o).all (entry_matches (trigger_window o pkt.payload)) then
    MatchResult.Triggered pkt.flow
  else
    MatchResult.NoTrigger

/-- Modelled from the spec: session states (section 3). -/
inductive SessionState where
  | UNARMED
  | ARMED
  | ESTABLISHED
  | CLOSED
  deriving DecidableEq, Repr

/-- Modelled from the spec: a session (section 3): state, last-seen timestamp, correlation id. -/
structure Session where
  state : SessionState
  last_seen : Nat
  correlation_id : Nat
  deriving DecidableEq, Repr

/-- Modelled from the spec: the session table (section 3), a mapping from flow identity to
session, here an association list searched from the front. -/
abbrev SessionTable := List (FlowIdentity × Session)

/-- The session of a flow, if the table has one. -/
def SessionTable.find (tbl : SessionTable) (f : FlowIdentity) : Option Session :=
  (List.find? (fun kv => decide (kv.1 = f)) tbl).map Prod.snd

/-- Modelled from the spec: the matcher with its side effect (section 4.1): on `Triggered` a new
`ARMED` entry is created for the flow unless one exists already (first writer wins, the match is
then ignored); on `NoTrigger` the table is left as it is.  `now` and `cid` are the timestamp and
the correlation id given to a new entry. -/
def matcher_step (o : TriggerOffsets) (now cid : Nat) (tbl : SessionTable) (pkt : Packet) :
    MatchResult × SessionTable :=
  match evaluate o pkt with
  | MatchResult.NoTrigger => (MatchResult.NoTrigger, tbl)
  | MatchResult.Triggered f =>
    match tbl.find f with
    | some _ => (MatchResult.Triggered f, tbl)
    | none => (MatchResult.Triggered f, (f, ⟨SessionState.ARMED, now, cid⟩) :: tbl)

/-! ## `src/user/xdp_filter.c` -/

/-- The handler of SIGINT and SIGTERM: `exiting = true;` whatever the signal number.  The static
flag `exiting` is passed in and returned. -/
def sig_handler (_sig : Int) (_exiting : Bool) : Bool := true

/-- The flag `exiting` after the handler has run for each delivered signal, in order. -/
def deliver (signals : List Int) (exiting : Bool) : Bool :=
  signals.foldl (fun flag sig => sig_handler sig flag) exiting

/-- The integer values of the enumeration constants `INFO`, `DEBUG`, `ERROR`, `EXIT`.  Their
declaration is in a header that is not among the sources, so they are parameters of the model. -/
structure event_kinds where
  INFO : Int
  DEBUG : Int
  ERROR : Int
  EXIT : Int
  deriving DecidableEq, Repr

/-- Modelled from the spec: the event record (section 3), whose `struct rb_event` declaration is
not among the sources; the fields are the ones `handle_rb_event` reads.  `message` is the
contents of the bounded character buffer. -/
structure rb_event where
  pid : Int
  message : List Char
  code : Int
  event_type : Int
  deriving DecidableEq, Repr

/-- The fields of `struct tm` that `strftime` reads for `"%H:%M:%S"`. -/
structure tm where
  tm_hour : Nat
  tm_min : Nat
  tm_sec : Nat
  deriving DecidableEq, Repr

/-- A number below 100 as two decimal digits, the way `%H`, `%M` and `%S` write it. -/
def two_digits (n : Nat) : String :=
  String.mk [Nat.digitChar (n / 10 % 10), Nat.digitChar (n % 10)]

/-- The text `strftime(ts, sizeof(ts), "%H:%M:%S", tm)` leaves in `ts`. -/
def strftime_HMS (t : tm) : String :=
  two_digits t.tm_hour ++ ":" ++ two_digits t.tm_min ++ ":" ++ two_digits t.tm_sec

/-- What `%s` writes for a character buffer that holds a NUL: the characters before the first NUL.
For a buffer without a NUL `printf` reads on past its end, which nothing here describes: the
statements about the text written for a message assume that the buffer holds a NUL. -/
def c_str (buf : List Char) : String := String.mk (buf.takeWhile (fun c => c ≠ Char.ofNat 0))

/-- What `%d` and `%i` write for an `int`: its decimal rendering. -/
def fmt_d (n : Int) : String := toString n

/-- The effect of one call of `handle_rb_event`: what it wrote to standard output, the value it
returned, and the record `data` points to after the call. -/
structure rb_outcome where
  stdout : String
  ret : Int
  data : rb_event
  deriving DecidableEq, Repr

/-- The ring buffer callback `handle_rb_event(ctx, data, data_size)`.  `ctx` and `data_size` are
not read by the body and are left out; `now` is the broken-down time `localtime` returns.  The
record is read through a pointer to `const` and is never written. -/
def handle_rb_event (K : event_kinds) (now : tm) (data : rb_event) : rb_outcome :=
  let e := data
  let ts := strftime_HMS now
  if e.event_type = K.INFO then
    ⟨ts ++ " INFO  pid:" ++ fmt_d e.pid ++ " code:" ++ fmt_d e.code ++ ", msg:"
        ++ c_str e.message ++ "\n", 0, data⟩
  else if e.event_type = K.DEBUG then
    ⟨"", 0, data⟩
  else if e.event_type = K.ERROR then
    ⟨"", 0, data⟩
  else if e.event_type = K.EXIT then
    ⟨"", 0, data⟩
  else
    ⟨"UNRECOGNIZED RB EVENT RECEIVED", -1, data⟩

/-- The value of `EINTR` in `errno.h` on Linux. -/
def EINTR : Int := 4

/-- The smallest `int`. -/
def INT_MIN : Int := -2147483648

/-- A mathematical integer reduced to the 32-bit two's complement range. -/
def wrap32 (z : Int) : Int := (z + 2147483648) % 4294967296 - 2147483648

/-- The expression `err < 0 ? -err : 0` that `main` returns at `cleanup`. -/
def cleanup_status (err : Int) : Int := if err < 0 then wrap32 (-err) else 0

/-- One value `getopt(argc, argv, ":t:vh")` can return before `-1`: `t` with the interface index
`if_nametoindex(optarg)` gives, `v`, `h`, `?` (unknown option), `:` (missing argument), or any
other character. -/
inductive getopt_result where
  | opt_t (ifindex : Nat)
  | opt_v
  | opt_h
  | unknown
  | missing
  | other
  deriving DecidableEq, Repr

/-- The option loop of `main`: `Except.error status` when a case calls `exit(status)`, otherwise
the interface index (if a `-t` set it) and the verbose flag. -/
def parse_options : List getopt_result → Option Nat → Bool → Except Int (Option Nat × Bool)
  | [], ifindex, verbose => Except.ok (ifindex, verbose)
  | getopt_result.opt_t i :: rest, _, verbose =>
    if i = 0 then Except.error 1 else parse_options rest (some i) verbose
  | getopt_result.opt_v :: rest, ifindex, _ => parse_options rest ifindex true
  | getopt_result.opt_h :: _, _, _ => Except.error 0
  | getopt_result.unknown :: _, _, _ => Except.error 1
  | getopt_result.missing :: _, _, _ => Except.error 1
  | getopt_result.other :: _, _, _ => Except.error 1

/-- One cycle of the polling loop as the environment decides it: the value `ring_buffer__poll`
returns, and the signals delivered to `sig_handler` from the moment the cycle starts until the
loop condition is tested again. -/
structure poll_cycle where
  result : Int
  signals : List Int
  deriving DecidableEq, Repr

/-- The variables of the polling loop: the flag `exiting`, the variable `err`, and a log of the
timeout argument of every `ring_buffer__poll` call made so far. -/
structure loop_state where
  exiting : Bool
  err : Int
  polled : List Int
  deriving DecidableEq, Repr

/-- The loop `while (!exiting)` of `main`, whose body assigns `ring_buffer__poll(rb, 100)` to
`err` and breaks on `-EINTR` (after clearing `err`) and on any other negative value, run against
the cycles the environment supplies.  `none` when the cycles run out while the loop is still
going (the loop itself has no bound). -/
def poll_loop : List poll_cycle → loop_state → Option loop_state
  | [], s => if s.exiting then some s else none
  | c :: rest, s =>
    if s.exiting then some s
    else
      let polled := s.polled ++ [100]
      let err := c.result
      let exiting := deliver c.signals s.exiting
      if err = -EINTR then some ⟨exiting, 0, polled⟩
      else if err < 0 then some ⟨exiting, err, polled⟩
      else poll_loop rest ⟨exiting, err, polled⟩

/-- Everything `main` obtains from outside: the option sequence, the result of `setrlimit`,
whether `xdp_filter_bpf__open` and `ring_buffer__new` return a non-null pointer, the results of
`xdp_filter_bpf__load`, `xdp_filter_bpf__attach` and of the two `bpf_set_link_xdp_fd` calls
(attaching with the program's descriptor, detaching with `-1`), the signals delivered between
the installation of the handlers and the loop, and the poll cycles. -/
structure main_env where
  opts : List getopt_result
  setrlimit : Int
  open_ok : Bool
  load : Int
  attach : Int
  link_attach : Int
  rb_ok : Bool
  early_signals : List Int
  cycles : List poll_cycle
  link_detach : Int
  deriving DecidableEq, Repr

/-- What a finished run of `main` did: the `int` it returned or passed to `exit` (`status`; the
exit status of the process is `exit_status` of it), whether it reached the polling loop, and the
timeouts of the `ring_buffer__poll` calls it made. -/
structure main_outcome where
  status : Int
  reached_loop : Bool
  polled : List Int
  deriving DecidableEq, Repr

/-- The function `main`, as far as its control flow, its `ring_buffer__poll` calls and the value
it returns go (the messages it prints are left out).  `none` when the polling loop is still running
at the end of the supplied cycles. -/
def main (env : main_env) : Option main_outcome :=
  match parse_options env.opts none false with
  | Except.error status => some ⟨status, false, []⟩
  | Except.ok _ =>
    if env.setrlimit ≠ 0 then some ⟨1, false, []⟩
    else if !env.open_ok then some ⟨1, false, []⟩
    else
      let err := env.load
      if err ≠ 0 then some ⟨cleanup_status err, false, []⟩
      else
        let err := env.attach
        if err ≠ 0 then some ⟨cleanup_status err, false, []⟩
        else
          let err := env.link_attach
          if !env.rb_ok then
            let err : Int := -1
            some ⟨cleanup_status err, false, []⟩
          else
            match poll_loop env.cycles ⟨deliver env.early_signals false, err, []⟩ with
            | none => none
            | some s =>
              let err := env.link_detach
              some ⟨cleanup_status err, true, s.polled⟩

/-! ## Lemmas on the literals -/

theorem bytes_SYN : bytes CC_PROT_SYN = [67, 67, 95, 83, 89, 78] := by decide

theorem bytes_ACK : bytes CC_PROT_ACK = [67, 67, 95, 65, 67, 75] := by decide

theorem bytes_MSG : bytes CC_PROT_MSG = [67, 67, 95, 77, 83, 71, 35] := by decide

theorem bytes_FIN :
    bytes CC_PROT_FIN = [67, 67, 95, 77, 83, 71, 35, 67, 67, 95, 70, 73, 78] := by
  decide

theorem starts_with_msg_of_fin (p : List Nat) (h : bytes CC_PROT_FIN <+: p) :
    bytes CC_PROT_MSG <+: p :=
  (show bytes CC_PROT_MSG <+: bytes CC_PROT_FIN by decide).trans h

theorem first_match_some (table : List (Token × List Nat)) (p : List Nat) (t : Token)
    (h : first_match table p = some t) : ∃ e ∈ table, e.1 = t ∧ e.2 <+: p := by
  induction table with
  | nil => cases h
  | cons e rest ih =>
    obtain ⟨tag, lit⟩ := e
    simp only [first_match] at h
    split_ifs at h with hpre
    · exact ⟨(tag, lit), List.mem_cons_self _ _, Option.some.inj h,
        List.isPrefixOf_iff_prefix.mp hpre⟩
    · obtain ⟨e, he, h1, h2⟩ := ih h
      exact ⟨e, List.mem_cons_of_mem _ he, h1, h2⟩

theorem first_match_msg_first (pre post : List (Token × List Nat))
    (hpre : ∀ e ∈ pre, e.1 ≠ Token.FIN)
    (hpost : ∀ e ∈ post, e.1 = Token.FIN → e.2 = bytes CC_PROT_FIN) (p : List Nat) :
    first_match (pre ++ (Token.MSG, bytes CC_PROT_MSG) :: post) p ≠ some Token.FIN := by
  induction pre with
  | nil =>
    intro h
    simp only [List.nil_append, first_match] at h
    split_ifs at h with hm
    · cases h
    · obtain ⟨e, he, h1, h2⟩ := first_match_some _ p Token.FIN h
      rw [hpost e he h1] at h2
      exact hm (List.isPrefixOf_iff_prefix.mpr (starts_with_msg_of_fin p h2))
  | cons d pre ih =>
    intro h
    obtain ⟨tag, lit⟩ := d
    simp only [List.cons_append, first_match] at h
    split_ifs at h with hd
    · exact hpre (tag, lit) (List.mem_cons_self _ _) (Option.some.inj h)
    · exact ih (fun e he => hpre e (List.mem_cons_of_mem _ he)) h

theorem at_most_one_literal (p : List Nat) :
    ¬ (bytes CC_PROT_SYN <+: p ∧ bytes CC_PROT_ACK <+: p) ∧
    ¬ (bytes CC_PROT_SYN <+: p ∧ bytes CC_PROT_MSG <+: p) ∧
    ¬ (bytes CC_PROT_ACK <+: p ∧ bytes CC_PROT_MSG <+: p) := by
  rw [bytes_SYN, bytes_ACK, bytes_MSG]
  refine ⟨?_, ?_, ?_⟩ <;>
  · rintro ⟨h1, h2⟩
    rcases List.prefix_or_prefix_of_prefix h1 h2 with h | h <;> exact absurd h (by decide)

theorem case_variant_starts (lit p t : List Nat)
    (hl : lit ∈ [bytes CC_PROT_SYN, bytes CC_PROT_ACK, bytes CC_PROT_MSG, bytes CC_PROT_FIN])
    (hp : differs_only_in_case p lit)
    (ht : t ∈ [bytes CC_PROT_SYN, bytes CC_PROT_ACK, bytes CC_PROT_MSG, bytes CC_PROT_FIN])
    (hpre : t <+: p) :
    lit = bytes CC_PROT_FIN ∧ t = bytes CC_PROT_MSG := by
  obtain ⟨hne, hmap⟩ := hp
  have hlen : p.length = lit.length := by
    have := congrArg List.length hmap
    simpa using this
  have hmap2 : t.map lower_byte <+: lit.map lower_byte := by
    rw [← hmap]; exact hpre.map _
  rw [bytes_SYN, bytes_ACK, bytes_MSG, bytes_FIN] at *
  simp only [List.mem_cons, List.mem_singleton, List.not_mem_nil, or_false] at hl ht
  rcases hl with rfl | rfl | rfl | rfl <;> rcases ht with rfl | rfl | rfl | rfl
  all_goals first
    | exact absurd hmap2 (by decide)
    | exact absurd (List.IsPrefix.eq_of_length hpre (by simpa using hlen.symm)).symm hne
    | exact ⟨rfl, rfl⟩

/-! ## Lemmas on `handle_rb_event` -/

theorem digitChar_isDigit (k : Nat) (h : k < 10) : (Nat.digitChar k).isDigit = true := by
  interval_cases k <;> decide

theorem strftime_HMS_shape (t : tm) :
    ∃ h1 h2 m1 m2 s1 s2 : Char,
      strftime_HMS t = String.mk [h1, h2, ':', m1, m2, ':', s1, s2] ∧
      h1.isDigit = true ∧ h2.isDigit = true ∧ m1.isDigit = true ∧ m2.isDigit = true ∧
      s1.isDigit = true ∧ s2.isDigit = true :=
  ⟨_, _, _, _, _, _, rfl,
    digitChar_isDigit _ (Nat.mod_lt _ (by decide)), digitChar_isDigit _ (Nat.mod_lt _ (by decide)),
    digitChar_isDigit _ (Nat.mod_lt _ (by decide)), digitChar_isDigit _ (Nat.mod_lt _ (by decide)),
    digitChar_isDigit _ (Nat.mod_lt _ (by decide)), digitChar_isDigit _ (Nat.mod_lt _ (by decide))⟩

theorem handle_rb_event_of_info (K : event_kinds) (now : tm) (e : rb_event)
    (h : e.event_type = K.INFO) :
    handle_rb_event K now e =
      ⟨strftime_HMS now ++ " INFO  pid:" ++ fmt_d e.pid ++ " code:" ++ fmt_d e.code
          ++ ", msg:" ++ c_str e.message ++ "\n", 0, e⟩ := by
  simp only [handle_rb_event, if_pos h]

theorem handle_rb_event_of_quiet (K : event_kinds) (now : tm) (e : rb_event)
    (hi : e.event_type ≠ K.INFO)
    (hk : e.event_type = K.DEBUG ∨ e.event_type = K.ERROR ∨ e.event_type = K.EXIT) :
    handle_rb_event K now e = ⟨"", 0, e⟩ := by
  by_cases h2 : e.event_type = K.DEBUG
  · simp only [handle_rb_event, if_neg hi, if_pos h2]
  by_cases h3 : e.event_type = K.ERROR
  · simp only [handle_rb_event, if_neg hi, if_neg h2, if_pos h3]
  have h4 : e.event_type = K.EXIT := (hk.resolve_left h2).resolve_left h3
  simp only [handle_rb_event, if_neg hi, if_neg h2, if_neg h3, if_pos h4]

theorem handle_rb_event_of_other (K : event_kinds) (now : tm) (e : rb_event)
    (h : ¬ (e.event_type = K.INFO ∨ e.event_type = K.DEBUG ∨ e.event_type = K.ERROR
        ∨ e.event_type = K.EXIT)) :
    handle_rb_event K now e = ⟨"UNRECOGNIZED RB EVENT RECEIVED", -1, e⟩ := by
  have h1 : e.event_type ≠ K.INFO := fun c => h (Or.inl c)
  have h2 : e.event_type ≠ K.DEBUG := fun c => h (Or.inr (Or.inl c))
  have h3 : e.event_type ≠ K.ERROR := fun c => h (Or.inr (Or.inr (Or.inl c)))
  have h4 : e.event_type ≠ K.EXIT := fun c => h (Or.inr (Or.inr (Or.inr c)))
  simp only [handle_rb_event, if_neg h1, if_neg h2, if_neg h3, if_neg h4]

theorem toDigitsCore_isDigit (fuel : Nat) :
    ∀ (n : Nat) (acc : List Char), (∀ c ∈ acc, c.isDigit = true) →
      ∀ c ∈ Nat.toDigitsCore 10 fuel n acc, c.isDigit = true := by
  induction fuel with
  | zero => intro n acc hacc c hc; exact hacc c (by simpa [Nat.toDigitsCore] using hc)
  | succ f ih =>
    intro n acc hacc c hc
    have hacc2 : ∀ c ∈ Nat.digitChar (n % 10) :: acc, c.isDigit = true := by
      intro c hc
      rcases List.mem_cons.mp hc with rfl | h
      · exact digitChar_isDigit _ (Nat.mod_lt _ (by decide))
      · exact hacc c h
    simp only [Nat.toDigitsCore] at hc
    split_ifs at hc
    · exact hacc2 c hc
    · exact ih _ _ hacc2 c hc

theorem nat_toString_isDigit (n : Nat) : ∀ c ∈ (toString n).toList, c.isDigit = true := by
  intro c hc
  have hrepr : toString n = (Nat.toDigits 10 n).asString := rfl
  rw [hrepr] at hc
  exact toDigitsCore_isDigit _ _ [] (by simp) c (by simpa [Nat.toDigits, List.asString] using hc)

theorem fmt_d_no_newline (z : Int) : '\n' ∉ (fmt_d z).toList := by
  intro h
  unfold fmt_d at h
  cases z with
  | ofNat m =>
    have hs : toString (Int.ofNat m) = toString m := rfl
    rw [hs] at h
    exact absurd (nat_toString_isDigit m _ h) (by decide)
  | negSucc m =>
    have hs : toString (Int.negSucc m) = "-" ++ toString (m + 1) := rfl
    rw [hs] at h
    simp only [String.toList, String.data_append, List.mem_append] at h
    rcases h with h | h
    · exact absurd h (by decide)
    · exact absurd (nat_toString_isDigit (m + 1) _ h) (by decide)

theorem strftime_HMS_no_newline (t : tm) : '\n' ∉ (strftime_HMS t).toList := by
  obtain ⟨h1, h2, m1, m2, s1, s2, hs, d1, d2, d3, d4, d5, d6⟩ := strftime_HMS_shape t
  rw [hs]
  intro h
  simp only [String.toList, List.mem_cons, List.mem_singleton, List.not_mem_nil, or_false] at h
  rcases h with h | h | h | h | h | h | h | h
  · rw [← h] at d1; exact absurd d1 (by decide)
  · rw [← h] at d2; exact absurd d2 (by decide)
  · exact absurd h (by decide)
  · rw [← h] at d3; exact absurd d3 (by decide)
  · rw [← h] at d4; exact absurd d4 (by decide)
  · exact absurd h (by decide)
  · rw [← h] at d5; exact absurd d5 (by decide)
  · rw [← h] at d6; exact absurd d6 (by decide)

theorem info_line_newlines (now : tm) (pid code : Int) (msg : String) :
    (strftime_HMS now ++ " INFO  pid:" ++ fmt_d pid ++ " code:" ++ fmt_d code
          ++ ", msg:" ++ msg ++ "\n").toList.count '\n' = msg.toList.count '\n' + 1 := by
  have h1 := List.count_eq_zero.mpr (strftime_HMS_no_newline now)
  have h2 := List.count_eq_zero.mpr (fmt_d_no_newline pid)
  have h3 := List.count_eq_zero.mpr (fmt_d_no_newline code)
  have h5 : " INFO  pid:".toList.count '\n' = 0 := by decide
  have h6 : " code:".toList.count '\n' = 0 := by decide
  have h7 : ", msg:".toList.count '\n' = 0 := by decide
  have h8 : "\n".toList.count '\n' = 1 := by decide
  simp only [String.toList] at *
  simp only [String.data_append, List.count_append, h1, h2, h3, h5, h6, h7, h8]
  omega

theorem c_str_split (buf : List Char) (hz : Char.ofNat 0 ∈ buf) :
    (∃ rest, buf = (c_str buf).toList ++ Char.ofNat 0 :: rest) ∧
      Char.ofNat 0 ∉ (c_str buf).toList := by
  induction buf with
  | nil => cases hz
  | cons c rest ih =>
    by_cases hc : c = Char.ofNat 0
    · subst hc
      refine ⟨⟨rest, ?_⟩, ?_⟩ <;> simp [c_str, String.toList]
    · have hz2 : Char.ofNat 0 ∈ rest := by
        rcases List.mem_cons.mp hz with h | h
        · exact absurd h.symm hc
        · exact h
      obtain ⟨⟨r, hr⟩, hn⟩ := ih hz2
      simp only [c_str, String.toList] at hr hn ⊢
      refine ⟨⟨r, ?_⟩, ?_⟩
      · simp only [List.takeWhile_cons, hc, ne_eq, not_false_eq_true, decide_True, ite_true,
          List.cons_append]
        rw [← hr]
      · simp only [List.takeWhile_cons, hc, ne_eq, not_false_eq_true, decide_True, ite_true,
          List.mem_cons, not_or]
        exact ⟨fun h => hc h.symm, hn⟩

theorem append_newline_ne_empty (s : String) : s ++ "\n" ≠ "" := by
  intro h
  have hlen := congrArg String.length h
  simp only [String.length_append] at hlen
  have h1 : "\n".length = 1 := by decide
  have h0 : "".length = 0 := by decide
  rw [h1, h0] at hlen
  omega

/-! ## Lemmas on the polling loop and `main` -/

theorem deliver_true (signals : List Int) : deliver signals true = true := by
  induction signals with
  | nil => rfl
  | cons sig rest ih => simpa [deliver, sig_handler] using ih

theorem deliver_of_ne_nil (signals : List Int) (b : Bool) (h : signals ≠ []) :
    deliver signals b = true := by
  cases signals with
  | nil => exact absurd rfl h
  | cons sig rest => exact deliver_true rest

theorem poll_loop_of_exiting (cycles : List poll_cycle) (s : loop_state) (h : s.exiting = true) :
    poll_loop cycles s = some s := by
  cases cycles <;> simp [poll_loop, h]

theorem poll_loop_polled (cycles : List poll_cycle) :
    ∀ s s', poll_loop cycles s = some s' →
      ∃ k, k ≤ cycles.length ∧ s'.polled = s.polled ++ List.replicate k 100 := by
  induction cycles with
  | nil =>
    intro s s' h
    refine ⟨0, le_refl _, ?_⟩
    by_cases he : s.exiting = true
    · rw [poll_loop_of_exiting [] s he] at h
      cases h; simp
    · simp [poll_loop, he] at h
  | cons c rest ih =>
    intro s s' h
    by_cases he : s.exiting = true
    · rw [poll_loop_of_exiting _ s he] at h
      cases h
      exact ⟨0, Nat.zero_le _, by simp⟩
    · simp only [poll_loop, he, Bool.false_eq_true, if_false] at h
      split_ifs at h with h1 h2
      · cases h
        exact ⟨1, by simp, rfl⟩
      · cases h
        exact ⟨1, by simp, rfl⟩
      · obtain ⟨k, hk, hp⟩ := ih _ _ h
        refine ⟨k + 1, by simpa using hk, ?_⟩
        rw [hp, List.append_assoc]
        rfl

theorem poll_loop_stops_after_signal (pre : List poll_cycle) (c : poll_cycle)
    (post : List poll_cycle) (hc : c.signals ≠ []) :
    ∀ s, ∃ s', poll_loop (pre ++ c :: post) s = some s' ∧
      s'.polled.length ≤ s.polled.length + pre.length + 1 := by
  induction pre with
  | nil =>
    intro s
    by_cases he : s.exiting = true
    · exact ⟨s, poll_loop_of_exiting _ s he, by omega⟩
    · simp only [List.nil_append, poll_loop, he, Bool.false_eq_true, if_false,
        deliver_of_ne_nil c.signals _ hc]
      split_ifs
      · exact ⟨_, rfl, by simp⟩
      · exact ⟨_, rfl, by simp⟩
      · exact ⟨_, poll_loop_of_exiting _ _ rfl, by simp⟩
  | cons d pre ih =>
    intro s
    by_cases he : s.exiting = true
    · exact ⟨s, poll_loop_of_exiting _ s he, by omega⟩
    · simp only [List.cons_append, poll_loop, he, Bool.false_eq_true, if_false]
      split_ifs
      · exact ⟨_, rfl, by simp⟩
      · exact ⟨_, rfl, by simp⟩
      · obtain ⟨s', hs, hl⟩ := ih ⟨deliver d.signals false, d.result, s.polled ++ [100]⟩
        refine ⟨s', hs, ?_⟩
        simp at hl ⊢
        omega

theorem poll_loop_err_irrelevant (cycles : List poll_cycle) (b : Bool) (e1 e2 : Int)
    (p : List Int) :
    (poll_loop cycles ⟨b, e1, p⟩).map (fun s => s.polled) =
      (poll_loop cycles ⟨b, e2, p⟩).map (fun s => s.polled) := by
  cases b
  · cases cycles with
    | nil => rfl
    | cons c rest => rfl
  · rw [poll_loop_of_exiting cycles ⟨true, e1, p⟩ rfl, poll_loop_of_exiting cycles ⟨true, e2, p⟩ rfl]
    rfl

theorem main_of_prelude (env : main_env) (x : Option Nat × Bool)
    (hp : parse_options env.opts none false = Except.ok x) (hs : env.setrlimit = 0)
    (ho : env.open_ok = true) (hl : env.load = 0) :
    main env =
      if env.attach ≠ 0 then some ⟨cleanup_status env.attach, false, []⟩
      else if env.rb_ok = false then some ⟨1, false, []⟩
      else
        (poll_loop env.cycles ⟨deliver env.early_signals false, env.link_attach, []⟩).map
          (fun s => ⟨cleanup_status env.link_detach, true, s.polled⟩) := by
  unfold main
  rw [hp]
  by_cases h1 : env.attach = 0
  · cases hb : env.rb_ok
    · simp [hs, ho, hl, h1, cleanup_status, wrap32]
    · simp only [hs, ho, hl, h1, ne_eq, not_true_eq_false, if_false, Bool.not_true,
        Bool.false_eq_true]
      cases poll_loop env.cycles ⟨deliver env.early_signals false, env.link_attach, []⟩ <;> rfl
  · simp [hs, ho, hl, h1]

theorem main_cases (env : main_env) (r : main_outcome) (h : main env = some r) :
    (r.reached_loop = false ∧ r.polled = []) ∨
    (r.reached_loop = true ∧ r.status = cleanup_status env.link_detach ∧
      ∃ s, poll_loop env.cycles ⟨deliver env.early_signals false, env.link_attach, []⟩ = some s ∧
        r.polled = s.polled) := by
  unfold main at h
  cases hp : parse_options env.opts none false with
  | error st =>
    rw [hp] at h
    cases h; exact Or.inl ⟨rfl, rfl⟩
  | ok x =>
    rw [hp] at h
    dsimp only at h
    by_cases hs : env.setrlimit = 0
    swap
    · rw [if_pos hs] at h; cases h; exact Or.inl ⟨rfl, rfl⟩
    rw [if_neg (not_not.mpr hs)] at h
    cases ho : env.open_ok
    · rw [ho] at h; cases h; exact Or.inl ⟨rfl, rfl⟩
    rw [ho] at h
    by_cases hl : env.load = 0
    swap
    · simp only [Bool.not_true, Bool.false_eq_true, if_false, ne_eq, hl, not_false_eq_true,
        if_true] at h
      cases h; exact Or.inl ⟨rfl, rfl⟩
    by_cases ha : env.attach = 0
    swap
    · simp only [Bool.not_true, Bool.false_eq_true, if_false, ne_eq, hl, ha, not_false_eq_true,
        if_true, not_true_eq_false] at h
      cases h; exact Or.inl ⟨rfl, rfl⟩
    cases hb : env.rb_ok
    · simp only [Bool.not_true, Bool.false_eq_true, if_false, ne_eq, hl, ha, hb,
        not_true_eq_false, Bool.not_false, if_true] at h
      cases h; exact Or.inl ⟨rfl, rfl⟩
    simp only [Bool.not_true, Bool.false_eq_true, if_false, ne_eq, hl, ha, hb,
        not_true_eq_false] at h
    cases hloop : poll_loop env.cycles ⟨deliver env.early_signals false, env.link_attach, []⟩ with
    | none => rw [hloop] at h; cases h
    | some s =>
      rw [hloop] at h
      cases h
      exact Or.inr ⟨rfl, rfl, s, rfl, rfl⟩

theorem cleanup_status_ne_zero (d : Int) (h1 : INT_MIN ≤ d) (h2 : d < 0) :
    cleanup_status d ≠ 0 := by
  unfold INT_MIN at h1
  simp only [cleanup_status, if_pos h2, wrap32]
  omega

/-! ## The claims -/

/-- C1: the trigger configuration of `c&c.h`: the window has 16 bytes, a section 2 bytes, the
keys are `56 A4`, `78 13`, `1F 29` in that order, every key has exactly the section length, and
three sections fit inside the window. -/
theorem trigger_configuration :
    CC_TRIGGER_SYN_PACKET_PAYLOAD_SIZE = 16 ∧
    CC_TRIGGER_SYN_PACKET_SECTION_LEN = 2 ∧
    [CC_TRIGGER_SYN_PACKET_KEY_1, CC_TRIGGER_SYN_PACKET_KEY_2, CC_TRIGGER_SYN_PACKET_KEY_3]
      = [[0x56, 0xA4], [0x78, 0x13], [0x1F, 0x29]] ∧
    (∀ k ∈ [CC_TRIGGER_SYN_PACKET_KEY_1, CC_TRIGGER_SYN_PACKET_KEY_2,
        CC_TRIGGER_SYN_PACKET_KEY_3], k.length = CC_TRIGGER_SYN_PACKET_SECTION_LEN) ∧
    3 * CC_TRIGGER_SYN_PACKET_SECTION_LEN ≤ CC_TRIGGER_SYN_PACKET_PAYLOAD_SIZE := by
  decide

/-- C2: `CC_PROT_FIN` is `CC_PROT_MSG` followed by `CC_PROT_FIN_PART`, the 13 bytes of
`CC_MSG#CC_FIN`; every payload that starts with `CC_PROT_FIN` starts with `CC_PROT_MSG`, and
`CC_MSG#hello` shows the converse fails; a first-match classifier that tests MSG before FIN
never answers FIN (whatever else its table holds, and in particular for the table SYN, ACK, MSG,
FIN), and one that tests FIN before MSG answers FIN for `CC_MSG#CC_FIN` and MSG for
`CC_MSG#hello`. -/
theorem fin_is_msg_frame :
    CC_PROT_FIN = CC_PROT_MSG ++ CC_PROT_FIN_PART ∧
    CC_PROT_FIN = "CC_MSG#CC_FIN" ∧
    (bytes CC_PROT_FIN).length = 13 ∧
    (∀ p : List Nat, bytes CC_PROT_FIN <+: p → bytes CC_PROT_MSG <+: p) ∧
    (bytes CC_PROT_MSG <+: bytes "CC_MSG#hello" ∧ ¬ bytes CC_PROT_FIN <+: bytes "CC_MSG#hello") ∧
    (∀ (pre post : List (Token × List Nat)), (∀ e ∈ pre, e.1 ≠ Token.FIN) →
      (∀ e ∈ post, e.1 = Token.FIN → e.2 = bytes CC_PROT_FIN) →
      ∀ p : List Nat,
        first_match (pre ++ (Token.MSG, bytes CC_PROT_MSG) :: post) p ≠ some Token.FIN) ∧
    (∀ p : List Nat, first_match msg_before_fin p ≠ some Token.FIN) ∧
    first_match msg_before_fin (bytes "CC_MSG#CC_FIN") = some Token.MSG ∧
    first_match fin_before_msg (bytes "CC_MSG#CC_FIN") = some Token.FIN ∧
    first_match fin_before_msg (bytes "CC_MSG#hello") = some Token.MSG :=
  ⟨rfl, by decide, by decide, starts_with_msg_of_fin, by decide, first_match_msg_first,
    first_match_msg_first [(Token.SYN, bytes CC_PROT_SYN), (Token.ACK, bytes CC_PROT_ACK)]
      [(Token.FIN, bytes CC_PROT_FIN)] (by decide) (by decide),
    by decide, by decide, by decide⟩

/-- C3 (as stated, refuted): the payload `CC_MSG#cc_fin` differs from the literal
`CC_PROT_FIN` only in letter case, and yet it starts with `CC_PROT_MSG`. -/
theorem fin_case_variant_starts_with_msg :
    differs_only_in_case (bytes "CC_MSG#cc_fin") (bytes CC_PROT_FIN) ∧
    bytes CC_PROT_MSG <+: bytes "CC_MSG#cc_fin" := by
  decide

/-- C3 (amended): the four wire literals are the ASCII strings `CC_SYN`, `CC_ACK`, `CC_MSG#` and
`CC_MSG#CC_FIN`; no payload starts with two of `CC_PROT_SYN`, `CC_PROT_ACK`, `CC_PROT_MSG`;
`CC_SYNxyz` starts with `CC_PROT_SYN` only and `CC_ACK` with `CC_PROT_ACK` only; a payload that
differs from `CC_PROT_SYN`, `CC_PROT_ACK` or `CC_PROT_MSG` only in letter case, such as `cc_syn`,
starts with none of the four literals; and a payload that differs from `CC_PROT_FIN` only in
letter case starts with none of `CC_PROT_SYN`, `CC_PROT_ACK`, `CC_PROT_FIN`. -/
theorem wire_literals_unambiguous :
    (CC_PROT_SYN = "CC_SYN" ∧ CC_PROT_ACK = "CC_ACK" ∧ CC_PROT_MSG = "CC_MSG#" ∧
      CC_PROT_FIN = "CC_MSG#CC_FIN") ∧
    (bytes CC_PROT_SYN = [0x43, 0x43, 0x5F, 0x53, 0x59, 0x4E] ∧
      bytes CC_PROT_ACK = [0x43, 0x43, 0x5F, 0x41, 0x43, 0x4B] ∧
      bytes CC_PROT_MSG = [0x43, 0x43, 0x5F, 0x4D, 0x53, 0x47, 0x23] ∧
      bytes CC_PROT_FIN
        = [0x43, 0x43, 0x5F, 0x4D, 0x53, 0x47, 0x23, 0x43, 0x43, 0x5F, 0x46, 0x49, 0x4E]) ∧
    (∀ p : List Nat,
      ¬ (bytes CC_PROT_SYN <+: p ∧ bytes CC_PROT_ACK <+: p) ∧
      ¬ (bytes CC_PROT_SYN <+: p ∧ bytes CC_PROT_MSG <+: p) ∧
      ¬ (bytes CC_PROT_ACK <+: p ∧ bytes CC_PROT_MSG <+: p)) ∧
    (bytes CC_PROT_SYN <+: bytes "CC_SYNxyz" ∧ ¬ bytes CC_PROT_ACK <+: bytes "CC_SYNxyz" ∧
      ¬ bytes CC_PROT_MSG <+: bytes "CC_SYNxyz") ∧
    (bytes CC_PROT_ACK <+: bytes "CC_ACK" ∧ ¬ bytes CC_PROT_SYN <+: bytes "CC_ACK" ∧
      ¬ bytes CC_PROT_MSG <+: bytes "CC_ACK") ∧
    (∀ lit ∈ [bytes CC_PROT_SYN, bytes CC_PROT_ACK, bytes CC_PROT_MSG], ∀ p : List Nat,
      differs_only_in_case p lit →
      ∀ t ∈ [bytes CC_PROT_SYN, bytes CC_PROT_ACK, bytes CC_PROT_MSG, bytes CC_PROT_FIN],
        ¬ t <+: p) ∧
    (∀ p : List Nat, differs_only_in_case p (bytes CC_PROT_FIN) →
      ∀ t ∈ [bytes CC_PROT_SYN, bytes CC_PROT_ACK, bytes CC_PROT_FIN], ¬ t <+: p) ∧
    (differs_only_in_case (bytes "cc_syn") (bytes CC_PROT_SYN) ∧
      ¬ bytes CC_PROT_SYN <+: bytes "cc_syn" ∧ ¬ bytes CC_PROT_ACK <+: bytes "cc_syn" ∧
      ¬ bytes CC_PROT_MSG <+: bytes "cc_syn" ∧ ¬ bytes CC_PROT_FIN <+: bytes "cc_syn") := by
  refine ⟨by decide, by decide, at_most_one_literal, by decide, by decide, ?_, ?_,
    ⟨⟨by decide, by decide⟩, by decide, by decide, by decide, by decide⟩⟩
  · intro lit hl p hp t ht hpre
    have hl4 : lit ∈ [bytes CC_PROT_SYN, bytes CC_PROT_ACK, bytes CC_PROT_MSG,
        bytes CC_PROT_FIN] := by
      simp only [List.mem_cons, List.mem_singleton, List.not_mem_nil, or_false] at hl ⊢
      rcases hl with h | h | h
      · exact Or.inl h
      · exact Or.inr (Or.inl h)
      · exact Or.inr (Or.inr (Or.inl h))
    have hfin := (case_variant_starts lit p t hl4 hp ht hpre).1
    rw [hfin] at hl
    exact absurd hl (by decide)
  · intro p hp t ht hpre
    have ht4 : t ∈ [bytes CC_PROT_SYN, bytes CC_PROT_ACK, bytes CC_PROT_MSG,
        bytes CC_PROT_FIN] := by
      simp only [List.mem_cons, List.mem_singleton, List.not_mem_nil, or_false] at ht ⊢
      rcases ht with h | h | h
      · exact Or.inl h
      · exact Or.inr (Or.inl h)
      · exact Or.inr (Or.inr (Or.inr h))
    have hmsg := (case_variant_starts _ p t (by decide) hp ht4 hpre).2
    rw [hmsg] at ht
    exact absurd ht (by decide)

/-- C4: the matcher is a binary gate: `evaluate` answers `Triggered` exactly when the packet is
a SYN without ACK, its payload has at least 16 bytes and the three 2-byte slices of the trigger
window at the configured offsets equal the three keys; otherwise it answers `NoTrigger`, and
then the session table is left as it was. -/
theorem evaluate_binary_gate (o : TriggerOffsets) (pkt : Packet) :
    (evaluate o pkt = MatchResult.Triggered pkt.flow ↔
      (pkt.syn = true ∧ pkt.ack = false ∧
        CC_TRIGGER_SYN_PACKET_PAYLOAD_SIZE ≤ pkt.payload.length ∧
        window_slice (trigger_window o pkt.payload) o.key_1 CC_TRIGGER_SYN_PACKET_SECTION_LEN
          = CC_TRIGGER_SYN_PACKET_KEY_1 ∧
        window_slice (trigger_window o pkt.payload) o.key_2 CC_TRIGGER_SYN_PACKET_SECTION_LEN
          = CC_TRIGGER_SYN_PACKET_KEY_2 ∧
        window_slice (trigger_window o pkt.payload) o.key_3 CC_TRIGGER_SYN_PACKET_SECTION_LEN
          = CC_TRIGGER_SYN_PACKET_KEY_3)) ∧
    (evaluate o pkt ≠ MatchResult.Triggered pkt.flow → evaluate o pkt = MatchResult.NoTrigger) ∧
    (∀ f, evaluate o pkt = MatchResult.Triggered f → f = pkt.flow) ∧
    (∀ (now cid : Nat) (tbl : SessionTable), evaluate o pkt = MatchResult.NoTrigger →
      matcher_step o now cid tbl pkt = (MatchResult.NoTrigger, tbl)) ∧
    evaluate ⟨0, 0, 4, 8⟩ ⟨true, false,
        [0x56, 0xA4, 0, 0, 0x78, 0x13, 0, 0, 0x1F, 0x29, 0, 0, 0, 0, 0, 0], ⟨1, 2, 3, 4, 6⟩⟩
      = MatchResult.Triggered ⟨1, 2, 3, 4, 6⟩ ∧
    evaluate ⟨0, 0, 4, 8⟩ ⟨true, false,
        [0x56, 0xA4, 0, 0, 0x78, 0x13, 0, 0, 0x1F, 0x2A, 0, 0, 0, 0, 0, 0], ⟨1, 2, 3, 4, 6⟩⟩
      = MatchResult.NoTrigger ∧
    evaluate ⟨0, 0, 4, 8⟩ ⟨true, false,
        [0x56, 0xA4, 0, 0, 0x78, 0x13, 0, 0, 0x1F, 0x29], ⟨1, 2, 3, 4, 6⟩⟩
      = MatchResult.NoTrigger := by
  refine ⟨?_, ?_, ?_, ?_, by decide, by decide, by decide⟩
  · unfold evaluate
    split_ifs with h
    · simp only [true_iff]
      simpa [key_table, entry_matches, and_assoc] using h
    · simp only [false_iff]
      intro hc
      apply h
      simpa [key_table, entry_matches, and_assoc] using hc
  · unfold evaluate
    split_ifs with h
    · intro hc; exact absurd rfl hc
    · intro _; rfl
  · intro f
    unfold evaluate
    split_ifs with h
    · intro hc; cases hc; rfl
    · intro hc; cases hc
  · intro now cid tbl h
    simp only [matcher_step, h]

/-- C5 (as stated, refuted): with the kinds numbered INFO 0, DEBUG 1, EXIT 2, ERROR 3, an ERROR
record and a DEBUG record make `handle_rb_event` write nothing, while an INFO record is
rendered. -/
theorem error_debug_not_rendered :
    (handle_rb_event ⟨0, 1, 3, 2⟩ ⟨12, 5, 9⟩
      ⟨77, "bad token".toList ++ [Char.ofNat 0], 5, 3⟩).stdout = "" ∧
    (handle_rb_event ⟨0, 1, 3, 2⟩ ⟨12, 5, 9⟩
      ⟨77, "short payload".toList ++ [Char.ofNat 0], 5, 1⟩).stdout = "" ∧
    (handle_rb_event ⟨0, 1, 3, 2⟩ ⟨12, 5, 9⟩
      ⟨77, "armed".toList ++ [Char.ofNat 0], 5, 0⟩).stdout ≠ "" := by
  decide

/-- C5 (amended): `handle_rb_event` accepts ERROR and DEBUG records without rendering them: for
every record whose kind is ERROR, DEBUG or EXIT (and not also INFO) it writes nothing and
returns 0; of the four kinds only INFO is rendered: for an INFO record (its message buffer
holding a NUL) it writes a text that is not empty and returns 0. -/
theorem handle_rb_event_silent (K : event_kinds) (now : tm) (e : rb_event) :
    ((e.event_type = K.ERROR ∨ e.event_type = K.DEBUG ∨ e.event_type = K.EXIT) →
      e.event_type ≠ K.INFO →
      (handle_rb_event K now e).stdout = "" ∧ (handle_rb_event K now e).ret = 0) ∧
    (e.event_type = K.INFO → Char.ofNat 0 ∈ e.message →
      (handle_rb_event K now e).stdout ≠ "" ∧ (handle_rb_event K now e).ret = 0) := by
  constructor
  · intro hk hi
    rw [handle_rb_event_of_quiet K now e hi
      (hk.elim (fun h => Or.inr (Or.inl h))
        (fun h => h.elim (fun h => Or.inl h) (fun h => Or.inr (Or.inr h))))]
    exact ⟨rfl, rfl⟩
  · intro hi _
    rw [handle_rb_event_of_info K now e hi]
    exact ⟨append_newline_ne_empty _, rfl⟩

/-- Witness for C5 (amended): with the kinds numbered INFO 0, DEBUG 1, EXIT 2, ERROR 3, an ERROR
record, a DEBUG record and an EXIT record are accepted in silence, and an INFO record is
rendered. -/
theorem handle_rb_event_silent_witness :
    ((handle_rb_event ⟨0, 1, 3, 2⟩ ⟨12, 5, 9⟩ ⟨77, "bad token".toList ++ [Char.ofNat 0], 5, 3⟩).stdout
        = "" ∧
      (handle_rb_event ⟨0, 1, 3, 2⟩ ⟨12, 5, 9⟩ ⟨77, "bad token".toList ++ [Char.ofNat 0], 5, 3⟩).ret
        = 0) ∧
    ((handle_rb_event ⟨0, 1, 3, 2⟩ ⟨12, 5, 9⟩ ⟨77, "short".toList ++ [Char.ofNat 0], 5, 1⟩).stdout
        = "" ∧
      (handle_rb_event ⟨0, 1, 3, 2⟩ ⟨12, 5, 9⟩ ⟨77, "short".toList ++ [Char.ofNat 0], 5, 1⟩).ret
        = 0) ∧
    ((handle_rb_event ⟨0, 1, 3, 2⟩ ⟨12, 5, 9⟩ ⟨77, "closed".toList ++ [Char.ofNat 0], 5, 2⟩).stdout
        = "" ∧
      (handle_rb_event ⟨0, 1, 3, 2⟩ ⟨12, 5, 9⟩ ⟨77, "closed".toList ++ [Char.ofNat 0], 5, 2⟩).ret
        = 0) ∧
    ((handle_rb_event ⟨0, 1, 3, 2⟩ ⟨12, 5, 9⟩ ⟨77, "armed".toList ++ [Char.ofNat 0], 5, 0⟩).stdout
        ≠ "" ∧
      (handle_rb_event ⟨0, 1, 3, 2⟩ ⟨12, 5, 9⟩ ⟨77, "armed".toList ++ [Char.ofNat 0], 5, 0⟩).ret
        = 0) :=
  ⟨(handle_rb_event_silent ⟨0, 1, 3, 2⟩ ⟨12, 5, 9⟩
      ⟨77, "bad token".toList ++ [Char.ofNat 0], 5, 3⟩).1 (Or.inl rfl) (by decide),
    (handle_rb_event_silent ⟨0, 1, 3, 2⟩ ⟨12, 5, 9⟩
      ⟨77, "short".toList ++ [Char.ofNat 0], 5, 1⟩).1 (Or.inr (Or.inl rfl)) (by decide),
    (handle_rb_event_silent ⟨0, 1, 3, 2⟩ ⟨12, 5, 9⟩
      ⟨77, "closed".toList ++ [Char.ofNat 0], 5, 2⟩).1 (Or.inr (Or.inr rfl)) (by decide),
    (handle_rb_event_silent ⟨0, 1, 3, 2⟩ ⟨12, 5, 9⟩
      ⟨77, "armed".toList ++ [Char.ofNat 0], 5, 0⟩).2 rfl (by decide)⟩

/-- C6 (as stated, refuted): an INFO record whose message text is `a`, a newline, `b` makes
`handle_rb_event` write two lines, not one. -/
theorem info_message_with_newline_two_lines :
    (handle_rb_event ⟨0, 1, 3, 2⟩ ⟨12, 5, 9⟩ ⟨1, ['a', '\n', 'b', Char.ofNat 0], 2, 0⟩).stdout
      = "12:05:09 INFO  pid:1 code:2, msg:a\nb\n" ∧
    (handle_rb_event ⟨0, 1, 3, 2⟩ ⟨12, 5, 9⟩
      ⟨1, ['a', '\n', 'b', Char.ofNat 0], 2, 0⟩).stdout.toList.count '\n' = 2 := by
  decide

/-- C6 (amended): for a record of kind INFO whose message buffer holds a NUL, `handle_rb_event`
writes the text `<HH:MM:SS> INFO  pid:<pid> code:<code>, msg:<message>` ended by a newline, where
the time stamp is two digits, a colon, two digits, a colon, two digits, `<pid>` and `<code>` are
the decimal renderings of the record's fields and `<message>` is the record's message text, the
characters of the buffer before its first NUL, unchanged; and it returns 0.  The text written has
one newline more than the message text: it is exactly one line when the message text has no
newline of its own. -/
theorem handle_rb_event_info (K : event_kinds) (now : tm) (e : rb_event)
    (h : e.event_type = K.INFO) (hz : Char.ofNat 0 ∈ e.message) :
    (handle_rb_event K now e).stdout =
        strftime_HMS now ++ " INFO  pid:" ++ fmt_d e.pid ++ " code:" ++ fmt_d e.code
          ++ ", msg:" ++ c_str e.message ++ "\n" ∧
      (handle_rb_event K now e).ret = 0 ∧
      (∃ h1 h2 m1 m2 s1 s2 : Char,
        strftime_HMS now = String.mk [h1, h2, ':', m1, m2, ':', s1, s2] ∧
        h1.isDigit = true ∧ h2.isDigit = true ∧ m1.isDigit = true ∧ m2.isDigit = true ∧
        s1.isDigit = true ∧ s2.isDigit = true) ∧
      ((∃ rest, e.message = (c_str e.message).toList ++ Char.ofNat 0 :: rest) ∧
        Char.ofNat 0 ∉ (c_str e.message).toList) ∧
      (handle_rb_event K now e).stdout.toList.count '\n'
        = (c_str e.message).toList.count '\n' + 1 ∧
      ('\n' ∉ (c_str e.message).toList →
        (handle_rb_event K now e).stdout.toList.count '\n' = 1) := by
  rw [handle_rb_event_of_info K now e h]
  refine ⟨rfl, rfl, strftime_HMS_shape now, c_str_split e.message hz,
    info_line_newlines now e.pid e.code (c_str e.message), fun hm => ?_⟩
  rw [info_line_newlines now e.pid e.code (c_str e.message), List.count_eq_zero.mpr hm]

/-- Witness for C6 (amended): the record with pid 1234, code -7 and message `hello`, handled at
12:05:09, is written as the one line `12:05:09 INFO  pid:1234 code:-7, msg:hello`. -/
theorem handle_rb_event_info_witness :
    (handle_rb_event ⟨0, 1, 3, 2⟩ ⟨12, 5, 9⟩
        ⟨1234, "hello".toList ++ [Char.ofNat 0, 'z'], -7, 0⟩).stdout
      = "12:05:09 INFO  pid:1234 code:-7, msg:hello\n" ∧
    (handle_rb_event ⟨0, 1, 3, 2⟩ ⟨12, 5, 9⟩
        ⟨1234, "hello".toList ++ [Char.ofNat 0, 'z'], -7, 0⟩).ret = 0 ∧
    (handle_rb_event ⟨0, 1, 3, 2⟩ ⟨12, 5, 9⟩
        ⟨1234, "hello".toList ++ [Char.ofNat 0, 'z'], -7, 0⟩).stdout.toList.count '\n' = 1 :=
  ⟨((handle_rb_event_info ⟨0, 1, 3, 2⟩ ⟨12, 5, 9⟩
        ⟨1234, "hello".toList ++ [Char.ofNat 0, 'z'], -7, 0⟩ rfl (by decide)).1).trans (by decide),
    (handle_rb_event_info ⟨0, 1, 3, 2⟩ ⟨12, 5, 9⟩
        ⟨1234, "hello".toList ++ [Char.ofNat 0, 'z'], -7, 0⟩ rfl (by decide)).2.1,
    (handle_rb_event_info ⟨0, 1, 3, 2⟩ ⟨12, 5, 9⟩
        ⟨1234, "hello".toList ++ [Char.ofNat 0, 'z'], -7, 0⟩ rfl (by decide)).2.2.2.2.2
      (by decide)⟩

/-- C7: `sig_handler` sets `exiting` for every signal number and nothing clears it; every
`ring_buffer__poll` call of the loop, and so of `main`, is made with timeout 100; no poll is
started when `exiting` is set at the loop head; and when a signal arrives during a cycle, that
cycle is the last one, whatever the environment would have supplied afterwards. -/
theorem polling_cadence_and_stop :
    (∀ (sig : Int) (exiting : Bool), sig_handler sig exiting = true) ∧
    (∀ signals : List Int, deliver signals true = true) ∧
    (∀ (cycles : List poll_cycle) (s s' : loop_state), poll_loop cycles s = some s' →
      ∃ k, k ≤ cycles.length ∧ s'.polled = s.polled ++ List.replicate k 100) ∧
    (∀ (env : main_env) (r : main_outcome), main env = some r → ∀ t ∈ r.polled, t = 100) ∧
    (∀ (cycles : List poll_cycle) (s : loop_state), s.exiting = true →
      poll_loop cycles s = some s) ∧
    (∀ (pre : List poll_cycle) (c : poll_cycle) (post : List poll_cycle) (s : loop_state),
      c.signals ≠ [] →
      ∃ s', poll_loop (pre ++ c :: post) s = some s' ∧
        s'.polled.length ≤ s.polled.length + pre.length + 1) ∧
    poll_loop [⟨0, []⟩, ⟨3, [15]⟩, ⟨1, []⟩, ⟨2, []⟩] ⟨false, 0, []⟩
      = some ⟨true, 3, [100, 100]⟩ := by
  refine ⟨fun _ _ => rfl, deliver_true, poll_loop_polled, ?_, poll_loop_of_exiting,
    fun pre c post s hc => poll_loop_stops_after_signal pre c post hc s, by decide⟩
  intro env r h t ht
  rcases main_cases env r h with ⟨_, hp⟩ | ⟨_, _, s, hs, hp⟩
  · rw [hp] at ht; cases ht
  · obtain ⟨k, _, hk⟩ := poll_loop_polled _ _ _ hs
    rw [hp, hk] at ht
    simp only [List.nil_append] at ht
    exact List.eq_of_mem_replicate ht

/-- C8 (the code at the failing input): with every earlier step succeeding,
`bpf_set_link_xdp_fd` failing with -19 on attach does not stop `main`: it enters the polling
loop, polls twice and exits with status 0; in general the outcome of such a run does not depend
on the result of that call.  A negative result of `xdp_filter_bpf__attach`, by contrast, is
fatal: the loop is not reached and the value `main` returns is not 0. -/
theorem link_attach_failure_not_fatal :
    main ⟨[getopt_result.opt_t 2], 0, true, 0, 0, -19, true, [], [⟨0, []⟩, ⟨-4, [2]⟩], 0⟩
      = some ⟨0, true, [100, 100]⟩ ∧
    (∀ (env : main_env) (x : Option Nat × Bool),
      parse_options env.opts none false = Except.ok x → env.setrlimit = 0 →
      env.open_ok = true → env.load = 0 → env.attach = 0 → env.rb_ok = true →
      main env = ((poll_loop env.cycles ⟨deliver env.early_signals false, 0, []⟩).map
        (fun s => s.polled)).map (fun p => ⟨cleanup_status env.link_detach, true, p⟩)) ∧
    (∀ (env : main_env) (x : Option Nat × Bool),
      parse_options env.opts none false = Except.ok x → env.setrlimit = 0 →
      env.open_ok = true → env.load = 0 → INT_MIN ≤ env.attach → env.attach < 0 →
      ∃ status, main env = some ⟨status, false, []⟩ ∧ status ≠ 0) := by
  refine ⟨by decide, ?_, ?_⟩
  · intro env x hp hs ho hl ha hb
    rw [main_of_prelude env x hp hs ho hl,
      ← poll_loop_err_irrelevant env.cycles _ env.link_attach 0 []]
    simp only [ha, hb, ne_eq, not_true_eq_false, if_false, Bool.true_eq_false, Option.map_map]
    rfl
  · intro env x hp hs ho hl hmin hneg
    rw [main_of_prelude env x hp hs ho hl, if_pos (ne_of_lt hneg)]
    exact ⟨_, rfl, cleanup_status_ne_zero _ hmin hneg⟩

/-- C9: `handle_rb_event` returns 0 exactly when the record's kind is INFO, DEBUG, ERROR or
EXIT; for every other kind it writes `UNRECOGNIZED RB EVENT RECEIVED` and returns -1; and the
record is the same after the call. -/
theorem handle_rb_event_kinds (K : event_kinds) (now : tm) (e : rb_event) :
    ((handle_rb_event K now e).ret = 0 ↔
      (e.event_type = K.INFO ∨ e.event_type = K.DEBUG ∨ e.event_type = K.ERROR
        ∨ e.event_type = K.EXIT)) ∧
    (¬ (e.event_type = K.INFO ∨ e.event_type = K.DEBUG ∨ e.event_type = K.ERROR
        ∨ e.event_type = K.EXIT) →
      (handle_rb_event K now e).ret = -1 ∧
      (handle_rb_event K now e).stdout = "UNRECOGNIZED RB EVENT RECEIVED") ∧
    (handle_rb_event K now e).data = e := by
  by_cases hk : e.event_type = K.INFO ∨ e.event_type = K.DEBUG ∨ e.event_type = K.ERROR
        ∨ e.event_type = K.EXIT
  · by_cases h1 : e.event_type = K.INFO
    · rw [handle_rb_event_of_info K now e h1]
      exact ⟨⟨fun _ => hk, fun _ => rfl⟩, fun hn => absurd hk hn, rfl⟩
    · rw [handle_rb_event_of_quiet K now e h1 (hk.resolve_left h1)]
      exact ⟨⟨fun _ => hk, fun _ => rfl⟩, fun hn => absurd hk hn, rfl⟩
  · rw [handle_rb_event_of_other K now e hk]
    exact ⟨⟨fun h => absurd h (show (-1 : Int) ≠ 0 by decide), fun h => absurd h hk⟩,
      fun _ => ⟨rfl, rfl⟩, rfl⟩

end TripleCross
